import Mathlib

/-!
Verification of the OpenViking MCP gateway core: identity resolution,
request-context construction, role-based authorization guards, admin tool
gating, startup lifecycle, config merging and the JSON error envelope.

Each definition is a shallow embedding of the corresponding Python
function in `src/openviking_mcp/`; theorems settle the specification
claims against those definitions.
-/

namespace OpenViking

/-! ## JSON values and serialization (model of Python json.dumps / json.loads) -/

/-- A JSON value: null, boolean, integer, string, array or object.
Object fields keep insertion order, as Python dicts do.  Numbers are
modelled as integers (the envelope and admin payloads only carry
integers and strings). -/
inductive JValue where
  | jNull : JValue
  | jBool : Bool → JValue
  | jNum : Int → JValue
  | jStr : String → JValue
  | jArr : List JValue → JValue
  | jObj : List (String × JValue) → JValue

/-- Decimal digit character for a value `0..9`. -/
def decDig : Nat → Char
  | 0 => '0' | 1 => '1' | 2 => '2' | 3 => '3' | 4 => '4'
  | 5 => '5' | 6 => '6' | 7 => '7' | 8 => '8' | 9 => '9'
  | _ => '0'

/-- Decimal rendering of a natural number, most significant digit first,
appended in front of `acc`. -/
def natDecAux (n : Nat) (acc : List Char) : List Char :=
  if h : n < 10 then decDig n :: acc
  else natDecAux (n / 10) (decDig (n % 10) :: acc)
termination_by n
decreasing_by exact Nat.div_lt_self (by omega) (by omega)

/-- Decimal rendering of a natural number. -/
def natDec (n : Nat) : List Char := natDecAux n []

/-- Decimal rendering of an integer, as Python `json.dumps` emits it. -/
def intDec (i : Int) : List Char :=
  if i < 0 then '-' :: natDec i.natAbs else natDec i.toNat

/-- Lower-case hexadecimal digit character for a value `0..15`. -/
def hexDig : Nat → Char
  | 0 => '0' | 1 => '1' | 2 => '2' | 3 => '3' | 4 => '4'
  | 5 => '5' | 6 => '6' | 7 => '7' | 8 => '8' | 9 => '9'
  | 10 => 'a' | 11 => 'b' | 12 => 'c' | 13 => 'd' | 14 => 'e' | 15 => 'f'
  | _ => '0'

/-- Four-digit lower-case hex rendering of `n < 0x10000`, as in `\uXXXX`. -/
def hex4 (n : Nat) : List Char :=
  [hexDig (n / 4096 % 16), hexDig (n / 256 % 16), hexDig (n / 16 % 16),
   hexDig (n % 16)]

/-- Escape one character the way CPython's `json.dumps` (ensure_ascii)
does: printable ASCII other than quote and backslash is literal, the
short escapes cover the usual control characters, everything else
becomes `\uXXXX`, with a surrogate pair above U+FFFF. -/
def escapeChar (c : Char) : List Char :=
  if c = '"' then ['\\', '"']
  else if c = '\\' then ['\\', '\\']
  else if c = '\x08' then ['\\', 'b']
  else if c = '\x09' then ['\\', 't']
  else if c = '\x0a' then ['\\', 'n']
  else if c = '\x0c' then ['\\', 'f']
  else if c = '\x0d' then ['\\', 'r']
  else if c.toNat < 0x20 then '\\' :: 'u' :: hex4 c.toNat
  else if c.toNat ≤ 0x7e then [c]
  else if c.toNat < 0x10000 then '\\' :: 'u' :: hex4 c.toNat
  else
    '\\' :: 'u' :: hex4 (0xd800 + (c.toNat - 0x10000) / 0x400) ++
      '\\' :: 'u' :: hex4 (0xdc00 + (c.toNat - 0x10000) % 0x400)

/-- Escape a list of characters. -/
def escList : List Char → List Char
  | [] => []
  | c :: t => escapeChar c ++ escList t

/-- A JSON string literal: quote, escaped body, quote. -/
def strLit (s : String) : List Char := '"' :: escList s.data ++ ['"']

mutual

/-- Serialize a JSON value exactly as Python `json.dumps` does with its
default separators (", " between items, ": " after keys). -/
def dumps : JValue → List Char
  | .jNull => ['n', 'u', 'l', 'l']
  | .jBool true => ['t', 'r', 'u', 'e']
  | .jBool false => ['f', 'a', 'l', 's', 'e']
  | .jNum n => intDec n
  | .jStr s => strLit s
  | .jArr [] => ['[', ']']
  | .jArr (x :: xs) => '[' :: dumps x ++ dumpsArr xs ++ [']']
  | .jObj [] => ['\x7b', '\x7d']
  | .jObj ((k, v) :: fs) =>
      '\x7b' :: strLit k ++ ':' :: ' ' :: dumps v ++ dumpsObj fs ++ ['\x7d']

/-- Remaining array items, each preceded by ", ". -/
def dumpsArr : List JValue → List Char
  | [] => []
  | x :: xs => ',' :: ' ' :: dumps x ++ dumpsArr xs

/-- Remaining object fields, each preceded by ", ". -/
def dumpsObj : List (String × JValue) → List Char
  | [] => []
  | (k, v) :: fs =>
      ',' :: ' ' :: strLit k ++ ':' :: ' ' :: dumps v ++ dumpsObj fs

end

/-- Serialize a JSON value to a `String`. -/
def dumpsStr (v : JValue) : String := (dumps v).asString

/-! ## JSON parsing (model of Python json.loads on this grammar) -/

/-- JSON whitespace, as `json.loads` skips it. -/
def isWs (c : Char) : Bool := c = ' ' ∨ c = '\x09' ∨ c = '\x0a' ∨ c = '\x0d'

/-- Drop leading JSON whitespace. -/
def skipWs : List Char → List Char
  | [] => []
  | c :: r => if isWs c then skipWs r else c :: r

/-- Strip an expected literal from the front of the input. -/
def stripPfx : List Char → List Char → Option (List Char)
  | [], cs => some cs
  | p :: ps, c :: cs => if c = p then stripPfx ps cs else none
  | _ :: _, [] => none

/-- ASCII decimal digit test. -/
def isDigitC (c : Char) : Bool := 48 ≤ c.toNat ∧ c.toNat ≤ 57

/-- Consume a run of digits, accumulating their value. -/
def parseDigits : List Char → Nat → Nat × List Char
  | c :: rest, acc =>
      if isDigitC c then parseDigits rest (acc * 10 + (c.toNat - 48))
      else (acc, c :: rest)
  | [], acc => (acc, [])

/-- Parse a nonempty run of digits as a natural number. -/
def parseNatNum : List Char → Option (Nat × List Char)
  | c :: rest =>
      if isDigitC c then some (parseDigits rest (c.toNat - 48)) else none
  | [] => none

/-- Parse a JSON integer (optional minus sign, then digits). -/
def parseNum : List Char → Option (Int × List Char)
  | c :: rest =>
      if c = '-' then
        match parseNatNum rest with
        | some (n, r) => some (-(n : Int), r)
        | none => none
      else
        match parseNatNum (c :: rest) with
        | some (n, r) => some ((n : Int), r)
        | none => none
  | [] => none

/-- Value of one hexadecimal digit character. -/
def hexVal (c : Char) : Option Nat :=
  if 48 ≤ c.toNat ∧ c.toNat ≤ 57 then some (c.toNat - 48)
  else if 97 ≤ c.toNat ∧ c.toNat ≤ 102 then some (c.toNat - 87)
  else if 65 ≤ c.toNat ∧ c.toNat ≤ 70 then some (c.toNat - 55)
  else none

/-- Value of a four-hex-digit escape. -/
def hex4Val (a b c d : Char) : Option Nat :=
  match hexVal a, hexVal b, hexVal c, hexVal d with
  | some x, some y, some z, some w => some (x * 4096 + y * 256 + z * 16 + w)
  | _, _, _, _ => none

/-- Short escape codes after a backslash. -/
def escCode (e : Char) : Option Char :=
  if e = '"' then some '"'
  else if e = '\\' then some '\\'
  else if e = '/' then some '/'
  else if e = 'b' then some '\x08'
  else if e = 'f' then some '\x0c'
  else if e = 'n' then some '\x0a'
  else if e = 'r' then some '\x0d'
  else if e = 't' then some '\x09'
  else none

/-- Parse the body of a JSON string literal (after the opening quote),
returning the decoded characters and the input after the closing quote.
`\uXXXX` escapes are decoded, combining a high/low surrogate pair into
one character; lone surrogates are rejected (they are not valid
characters).  The fuel bounds the number of decoded characters; one
more than the input length is always sufficient, since every step
consumes at least one input character. -/
def parseStrBody : Nat → List Char → Option (List Char × List Char)
  | 0, _ => none
  | _ + 1, [] => none
  | fuel + 1, c :: rest =>
    if c = '"' then some ([], rest)
    else if c = '\\' then
      match rest with
      | [] => none
      | e :: rest1 =>
        if e = 'u' then
          match rest1 with
          | a :: b :: c0 :: d0 :: rest2 =>
            (match hex4Val a b c0 d0 with
            | none => none
            | some n =>
              if 55296 ≤ n ∧ n < 56320 then
                match rest2 with
                | e1 :: e2 :: a2 :: b2 :: c2 :: d2 :: rest3 =>
                  if e1 = '\\' ∧ e2 = 'u' then
                    match hex4Val a2 b2 c2 d2 with
                    | none => none
                    | some m =>
                      if 56320 ≤ m ∧ m < 57344 then
                        match parseStrBody fuel rest3 with
                        | none => none
                        | some (s, r) =>
                            some (Char.ofNat
                              (65536 + (n - 55296) * 1024 + (m - 56320))
                              :: s, r)
                      else none
                  else none
                | _ => none
              else if 56320 ≤ n ∧ n < 57344 then none
              else
                match parseStrBody fuel rest2 with
                | none => none
                | some (s, r) => some (Char.ofNat n :: s, r))
          | _ => none
        else
          match escCode e with
          | none => none
          | some ec =>
            match parseStrBody fuel rest1 with
            | none => none
            | some (s, r) => some (ec :: s, r)
    else if c.toNat < 32 then none
    else
      match parseStrBody fuel rest with
      | none => none
      | some (s, r) => some (c :: s, r)

mutual

/-- Parse one JSON value (fuel-indexed). -/
def parseVal : Nat → List Char → Option (JValue × List Char)
  | 0, _ => none
  | Nat.succ fuel, cs =>
    match skipWs cs with
    | [] => none
    | c :: rest =>
      if c = 'n' then
        match stripPfx ['u', 'l', 'l'] rest with
        | some r => some (.jNull, r)
        | none => none
      else if c = 't' then
        match stripPfx ['r', 'u', 'e'] rest with
        | some r => some (.jBool true, r)
        | none => none
      else if c = 'f' then
        match stripPfx ['a', 'l', 's', 'e'] rest with
        | some r => some (.jBool false, r)
        | none => none
      else if c = '"' then
        match parseStrBody (rest.length + 1) rest with
        | some (s, r) => some (.jStr (String.mk s), r)
        | none => none
      else if c = '[' then
        match skipWs rest with
        | [] => none
        | c2 :: r =>
          if c2 = ']' then some (.jArr [], r)
          else
            match parseItems fuel (c2 :: r) with
            | some (vs, r2) => some (.jArr vs, r2)
            | none => none
      else if c = '\x7b' then
        match skipWs rest with
        | [] => none
        | c2 :: r =>
          if c2 = '\x7d' then some (.jObj [], r)
          else
            match parseFields fuel (c2 :: r) with
            | some (fs, r2) => some (.jObj fs, r2)
            | none => none
      else
        match parseNum (c :: rest) with
        | some (n, r) => some (.jNum n, r)
        | none => none

/-- Parse the items of a nonempty JSON array (fuel-indexed), up to and
including the closing bracket. -/
def parseItems : Nat → List Char → Option (List JValue × List Char)
  | 0, _ => none
  | Nat.succ fuel, cs =>
    match parseVal fuel cs with
    | none => none
    | some (v, r) =>
      match skipWs r with
      | [] => none
      | d :: r2 =>
        if d = ',' then
          match parseItems fuel r2 with
          | some (vs, r3) => some (v :: vs, r3)
          | none => none
        else if d = ']' then some ([v], r2)
        else none

/-- Parse the fields of a nonempty JSON object (fuel-indexed), up to
and including the closing brace. -/
def parseFields : Nat → List Char →
    Option (List (String × JValue) × List Char)
  | 0, _ => none
  | Nat.succ fuel, cs =>
    match skipWs cs with
    | [] => none
    | c :: cs1 =>
      if c = '"' then
        match parseStrBody (cs1.length + 1) cs1 with
        | none => none
        | some (k, r) =>
          match skipWs r with
          | [] => none
          | d :: r1 =>
            if d = ':' then
              match parseVal fuel r1 with
              | none => none
              | some (v, r2) =>
                match skipWs r2 with
                | [] => none
                | d2 :: r3 =>
                  if d2 = ',' then
                    match parseFields fuel r3 with
                    | some (fs, r4) => some ((String.mk k, v) :: fs, r4)
                    | none => none
                  else if d2 = '\x7d' then some ([(String.mk k, v)], r3)
                  else none
            else none
      else none

end

/-- Parse a complete JSON document: one value, with only whitespace
allowed afterwards.  The fuel `s.length + 1` is always sufficient for
any value `s` could serialize. -/
def parse (s : String) : Option JValue :=
  match parseVal (s.length + 1) s.data with
  | some (v, r) => if skipWs r = [] then some v else none
  | none => none

/-! ## Source: `openviking_mcp/errors.py` -/

/-- The tagged domain error (`OpenVikingError` from `openviking_cli`),
carrying a code, a message and arbitrary details.  The class itself
lives outside this repository; its (code, message, details) payload is
the shape `format_error` consumes.  Details are modelled as an
already-JSON-converted value (the source serializes them with
`default=str`, rendering non-JSON-native values via their display
form). -/
structure OpenVikingError where
  code : String
  message : String
  details : JValue

/-- `format_error` from `errors.py`: render the error envelope
`{"error": true, "code": ..., "message": ..., "details": ...}`. -/
def format_error (e : OpenVikingError) : String :=
  dumpsStr (.jObj [("error", .jBool true), ("code", .jStr e.code),
    ("message", .jStr e.message), ("details", e.details)])

/-- `permission_denied` from `errors.py`: render
`{"error": true, "code": "PERMISSION_DENIED", "message": ...}` (no
details key). -/
def permission_denied (message : String) : String :=
  dumpsStr (.jObj [("error", .jBool true),
    ("code", .jStr "PERMISSION_DENIED"), ("message", .jStr message)])

/-! ## Data model (identity types) -/

/-- Modelled from the spec: `Role` is the enumerated value in
{ROOT, ADMIN, USER} defined by `openviking.server.identity`, which is
outside this repository. -/
inductive Role where
  | ROOT : Role
  | ADMIN : Role
  | USER : Role
deriving DecidableEq

/-- Modelled from the spec: `UserIdentifier` (from
`openviking_cli.session.user_id`, outside this repository) is the
immutable (account, user, agent) triple identifying the acting
principal. -/
structure UserIdentifier where
  account : String
  user : String
  agent : String
deriving DecidableEq

/-- Modelled from the spec: `ResolvedIdentity` (from
`openviking.server.identity`, outside this repository) is the output of
credential resolution: optional account/user/agent ids plus a Role.
`none` models a missing (null) field. -/
structure ResolvedIdentity where
  account_id : Option String
  user_id : Option String
  agent_id : Option String
  role : Role

/-- Modelled from the spec: `RequestContext` (from
`openviking.server.identity`, outside this repository) is the
(UserIdentifier, Role) pair built fresh for every call. -/
structure RequestContext where
  user : UserIdentifier
  role : Role
deriving DecidableEq

/-! ## Source: `openviking_mcp/context.py` -/

/-- Python `x or "default"` on an optional string: `None` and the empty
string are falsy and replaced by `"default"`. -/
def orDefault : Option String → String
  | none => "default"
  | some v => if v = "" then "default" else v

/-- `get_request_context` from `context.py`, as a function of the
session's cached identity slot (`_ov_identity`, `none` when the slot is
absent): build the per-call `RequestContext`, falling back to the
anonymous ROOT context in dev mode. -/
def get_request_context (identity : Option ResolvedIdentity) : RequestContext :=
  match identity with
  | some id =>
      { user := { account := orDefault id.account_id,
                  user := orDefault id.user_id,
                  agent := orDefault id.agent_id },
        role := id.role }
  | none =>
      { user := { account := "default", user := "default", agent := "default" },
        role := Role.ROOT }

/-! ## Source: `openviking_mcp/tools/admin.py` (guards) -/

/-- `_require_root` from `admin.py`: `none` means authorized, `some s`
is the denial JSON.  Totality of this function models that the guard
never raises. -/
def _require_root (request_ctx : RequestContext) : Option String :=
  if request_ctx.role ≠ Role.ROOT then
    some (permission_denied "ROOT role required")
  else none

/-- `_require_admin_or_root` from `admin.py`: `none` means authorized
(ROOT anywhere, or ADMIN of the given account), `some s` is the denial
JSON.  Totality models that the guard never raises. -/
def _require_admin_or_root (request_ctx : RequestContext)
    (account_id : String) : Option String :=
  if request_ctx.role = Role.ROOT then none
  else if request_ctx.role = Role.ADMIN ∧ request_ctx.user.account = account_id
    then none
  else some (permission_denied "ROOT or account ADMIN role required")

/-! ## Source: `openviking_mcp/auth.py` and the external collaborators -/

/-- The external `APIKeyManager` (from `openviking.server.api_keys`,
outside this repository), modelled by its observable behaviour: each
method either raises (`Except.error`) or returns.  `resolve` may raise
an arbitrary exception (error type `Unit`); the admin-facing methods
raise `OpenVikingError`s, the only kind the tool layer catches. -/
structure APIKeyManager where
  resolve : String → Except Unit (Option ResolvedIdentity)
  create_account : String → String → Except OpenVikingError String
  get_accounts : Except OpenVikingError JValue
  delete_account : String → Except OpenVikingError Unit
  register_user : String → String → String → Except OpenVikingError String
  get_users : String → Except OpenVikingError JValue
  remove_user : String → String → Except OpenVikingError Unit
  set_role : String → String → String → Except OpenVikingError Unit

/-- The external `OpenVikingService` (outside this repository), modelled
by the pieces this gateway touches: its backing-store URL and the
directory-initialization calls made by admin tools. -/
structure OpenVikingService where
  agfs_url : String
  initialize_account_directories : RequestContext → Except OpenVikingError Unit
  initialize_user_directories : RequestContext → Except OpenVikingError Unit

/-- `resolve_identity` from `auth.py`: map a bearer token to an identity
through the optional key-store.  No key-store, or any exception from the
store's lookup, yields `none`; totality models that this function never
raises. -/
def resolve_identity (api_key_manager : Option APIKeyManager)
    (token : String) : Option ResolvedIdentity :=
  match api_key_manager with
  | none => none
  | some m =>
      match m.resolve token with
      | Except.error _ => none
      | Except.ok ident => ident

/-! ## Source: `openviking_mcp/server.py` -/

/-- `AppContext` from `server.py`: the shared service handle and the
optional key manager, constructed once at startup. -/
structure AppContext where
  service : OpenVikingService
  api_key_manager : Option APIKeyManager

/-- `MCPServerConfig` from `config.py`: the merged server configuration. -/
structure MCPServerConfig where
  host : String
  port : Int
  root_api_key : Option String
  cors_origins : List String

/-- Python truthiness of `config.root_api_key`: `None` and `""` are
falsy. -/
def rootKeyConfigured (c : MCPServerConfig) : Bool :=
  match c.root_api_key with
  | none => false
  | some k => k ≠ ""

/-- The `AppContext` yielded by `app_lifespan` in `server.py`, as a
function of the config, the initialized service, and the external
`APIKeyManager` constructor (root_key, agfs_url ↦ manager): the key
manager is built exactly when `config.root_api_key` is truthy.  The
dataclass fields are never reassigned afterwards in the source, which
this pure construction models. -/
def app_lifespan_context (config : MCPServerConfig)
    (service : OpenVikingService)
    (mkManager : String → String → APIKeyManager) : AppContext :=
  match config.root_api_key with
  | some k =>
      if k = "" then { service := service, api_key_manager := none }
      else
        { service := service,
          api_key_manager := some (mkManager k service.agfs_url) }
  | none => { service := service, api_key_manager := none }

/-! ## Source: `openviking_mcp/config.py` -/

/-- One section (`server` or `mcp_server`) of an `ov.conf` document:
each key is either absent (`none`) or present with a well-typed value.
`server.port` is representable but never read by the merge. -/
structure ConfSection where
  host : Option String
  port : Option Int
  root_api_key : Option String
  cors_origins : Option (List String)

/-- The empty section, as `data.get(..., {})` yields for a missing
section. -/
def emptySection : ConfSection :=
  { host := none, port := none, root_api_key := none, cors_origins := none }

/-- An `ov.conf` document: two optional sections. -/
structure ConfDoc where
  server : Option ConfSection
  mcp_server : Option ConfSection

/-- `MCPServerConfig.from_ov_conf` from `config.py`, as a function of
the parsed document (`none` models an absent config file): merge the
`mcp_server` section over the `server` section, except that `port`
never falls back to `server.port`. -/
def from_ov_conf (doc : Option ConfDoc) : MCPServerConfig :=
  match doc with
  | none =>
      { host := "0.0.0.0", port := 2033, root_api_key := none,
        cors_origins := ["*"] }
  | some data =>
      let server := data.server.getD emptySection
      let mcp := data.mcp_server.getD emptySection
      { host := mcp.host.getD (server.host.getD "0.0.0.0"),
        port := mcp.port.getD 2033,
        root_api_key :=
          match mcp.root_api_key with
          | some v => some v
          | none => server.root_api_key,
        cors_origins := mcp.cors_origins.getD (server.cors_origins.getD ["*"]) }

/-! ## Source: `openviking_mcp/tools/admin.py` (tools)

Each tool is modelled as a function returning the response string
together with the trace of external (key-manager / service) operations
it invoked, in order.  The `try/except OpenVikingError` wrapper of the
source is the `Except.error` handling below; other exceptions propagate
to the transport layer and are outside the model. -/

/-- One external operation invoked by an admin tool. -/
inductive ExtCall where
  | createAccount : ExtCall
  | getAccounts : ExtCall
  | deleteAccount : ExtCall
  | registerUser : ExtCall
  | getUsers : ExtCall
  | removeUser : ExtCall
  | setRole : ExtCall
  | initAccountDirs : ExtCall
  | initUserDirs : ExtCall
deriving DecidableEq

/-- `admin_create_account` from `admin.py`. -/
def admin_create_account (app : AppContext)
    (identity : Option ResolvedIdentity)
    (account_id admin_user_id : String) : String × List ExtCall :=
  match _require_root (get_request_context identity) with
  | some err => (err, [])
  | none =>
    match app.api_key_manager with
    | none => (permission_denied "Auth not configured (dev mode)", [])
    | some m =>
      let request_ctx := get_request_context identity
      match m.create_account account_id admin_user_id with
      | Except.error e => (format_error e, [ExtCall.createAccount])
      | Except.ok user_key =>
        match app.service.initialize_account_directories request_ctx with
        | Except.error e =>
            (format_error e, [ExtCall.createAccount, ExtCall.initAccountDirs])
        | Except.ok _ =>
            (dumpsStr (.jObj [("account_id", .jStr account_id),
              ("admin_user_id", .jStr admin_user_id),
              ("user_key", .jStr user_key)]),
             [ExtCall.createAccount, ExtCall.initAccountDirs])

/-- `admin_list_accounts` from `admin.py`. -/
def admin_list_accounts (app : AppContext)
    (identity : Option ResolvedIdentity) : String × List ExtCall :=
  match _require_root (get_request_context identity) with
  | some err => (err, [])
  | none =>
    match app.api_key_manager with
    | none => (permission_denied "Auth not configured (dev mode)", [])
    | some m =>
      match m.get_accounts with
      | Except.error e => (format_error e, [ExtCall.getAccounts])
      | Except.ok result => (dumpsStr result, [ExtCall.getAccounts])

/-- `admin_delete_account` from `admin.py`. -/
def admin_delete_account (app : AppContext)
    (identity : Option ResolvedIdentity)
    (account_id : String) : String × List ExtCall :=
  match _require_root (get_request_context identity) with
  | some err => (err, [])
  | none =>
    match app.api_key_manager with
    | none => (permission_denied "Auth not configured (dev mode)", [])
    | some m =>
      match m.delete_account account_id with
      | Except.error e => (format_error e, [ExtCall.deleteAccount])
      | Except.ok _ =>
          (dumpsStr (.jObj [("account_id", .jStr account_id),
            ("deleted", .jBool true)]),
           [ExtCall.deleteAccount])

/-- `admin_register_user` from `admin.py`. -/
def admin_register_user (app : AppContext)
    (identity : Option ResolvedIdentity)
    (account_id user_id role : String) : String × List ExtCall :=
  match _require_admin_or_root (get_request_context identity) account_id with
  | some err => (err, [])
  | none =>
    match app.api_key_manager with
    | none => (permission_denied "Auth not configured (dev mode)", [])
    | some m =>
      let request_ctx := get_request_context identity
      match m.register_user account_id user_id role with
      | Except.error e => (format_error e, [ExtCall.registerUser])
      | Except.ok user_key =>
        match app.service.initialize_user_directories request_ctx with
        | Except.error e =>
            (format_error e, [ExtCall.registerUser, ExtCall.initUserDirs])
        | Except.ok _ =>
            (dumpsStr (.jObj [("account_id", .jStr account_id),
              ("user_id", .jStr user_id), ("user_key", .jStr user_key)]),
             [ExtCall.registerUser, ExtCall.initUserDirs])

/-- `admin_list_users` from `admin.py`. -/
def admin_list_users (app : AppContext)
    (identity : Option ResolvedIdentity)
    (account_id : String) : String × List ExtCall :=
  match _require_admin_or_root (get_request_context identity) account_id with
  | some err => (err, [])
  | none =>
    match app.api_key_manager with
    | none => (permission_denied "Auth not configured (dev mode)", [])
    | some m =>
      match m.get_users account_id with
      | Except.error e => (format_error e, [ExtCall.getUsers])
      | Except.ok result => (dumpsStr result, [ExtCall.getUsers])

/-- `admin_remove_user` from `admin.py`. -/
def admin_remove_user (app : AppContext)
    (identity : Option ResolvedIdentity)
    (account_id user_id : String) : String × List ExtCall :=
  match _require_admin_or_root (get_request_context identity) account_id with
  | some err => (err, [])
  | none =>
    match app.api_key_manager with
    | none => (permission_denied "Auth not configured (dev mode)", [])
    | some m =>
      match m.remove_user account_id user_id with
      | Except.error e => (format_error e, [ExtCall.removeUser])
      | Except.ok _ =>
          (dumpsStr (.jObj [("account_id", .jStr account_id),
            ("user_id", .jStr user_id), ("deleted", .jBool true)]),
           [ExtCall.removeUser])

/-- `admin_set_role` from `admin.py`. -/
def admin_set_role (app : AppContext)
    (identity : Option ResolvedIdentity)
    (account_id user_id role : String) : String × List ExtCall :=
  match _require_root (get_request_context identity) with
  | some err => (err, [])
  | none =>
    match app.api_key_manager with
    | none => (permission_denied "Auth not configured (dev mode)", [])
    | some m =>
      match m.set_role account_id user_id role with
      | Except.error e => (format_error e, [ExtCall.setRole])
      | Except.ok _ =>
          (dumpsStr (.jObj [("account_id", .jStr account_id),
            ("user_id", .jStr user_id), ("role", .jStr role)]),
           [ExtCall.setRole])

/-! ## Round-trip infrastructure: characters, hex, decimal -/

/-- True when the input does not begin with a decimal digit (so a
number parse cannot overrun into it). -/
def noDigitHead : List Char → Bool
  | [] => true
  | c :: _ => !isDigitC c

/-- The accumulator step of `parseDigits`. -/
def digStep (acc : Nat) (c : Char) : Nat := acc * 10 + (c.toNat - 48)

mutual

/-- Fuel needed by `parseVal` to parse the serialization of a value. -/
def nfV : JValue → Nat
  | .jArr (x :: xs) => 1 + nfI (x :: xs)
  | .jObj (f :: fs) => 1 + nfF (f :: fs)
  | _ => 1

/-- Fuel needed by `parseItems` for the serialized items. -/
def nfI : List JValue → Nat
  | [] => 0
  | x :: xs => 1 + nfV x + nfI xs

/-- Fuel needed by `parseFields` for the serialized fields. -/
def nfF : List (String × JValue) → Nat
  | [] => 0
  | (_, v) :: fs => 1 + nfV v + nfF fs

end

/-- Possible first characters of a serialized JSON value. -/
def headOk (c : Char) : Prop :=
  c = 'n' ∨ c = 't' ∨ c = 'f' ∨ c = '"' ∨ c = '[' ∨ c = '\x7b' ∨
    c = '-' ∨ isDigitC c = true

/-- A concrete external service instance. -/
def sampleService : OpenVikingService :=
  { agfs_url := "agfs://store",
    initialize_account_directories := fun _ => Except.ok (),
    initialize_user_directories := fun _ => Except.ok () }

/-- A concrete key manager whose lookup always raises. -/
def sampleManager : APIKeyManager :=
  { resolve := fun _ => Except.error (),
    create_account := fun _ _ => Except.ok "key",
    get_accounts := Except.ok (.jArr []),
    delete_account := fun _ => Except.ok (),
    register_user := fun _ _ _ => Except.ok "key",
    get_users := fun _ => Except.ok (.jArr []),
    remove_user := fun _ _ => Except.ok (),
    set_role := fun _ _ _ => Except.ok () }

/-- The parsed form of a permission denial payload. -/
def pdObj (message : String) : JValue :=
  .jObj [("error", .jBool true), ("code", .jStr "PERMISSION_DENIED"),
    ("message", .jStr message)]

theorem char_toNat_val (c : Char) : c.toNat = c.val.toNat := rfl

theorem char_valid_range (c : Char) :
    c.toNat < 1114112 ∧ ¬(55296 ≤ c.toNat ∧ c.toNat < 57344) := by
  have h := c.valid
  have e : c.toNat = c.val.toNat := rfl
  unfold Nat.isValidChar at h
  omega

theorem char_eq_of_toNat {a b : Char} (h : a.toNat = b.toNat) : a = b :=
  Char.eq_of_val_eq (UInt32.toNat.inj h)

theorem isDigitC_iff (c : Char) :
    isDigitC c = true ↔ 48 ≤ c.toNat ∧ c.toNat ≤ 57 := by
  simp [isDigitC]

theorem hexVal_hexDig_fin : ∀ d : Fin 16, hexVal (hexDig d.val) = some d.val := by
  decide

theorem hexVal_hexDig {d : Nat} (h : d < 16) : hexVal (hexDig d) = some d :=
  hexVal_hexDig_fin ⟨d, h⟩

theorem hex4Val_hex4 {n : Nat} (h : n < 65536) :
    hex4Val (hexDig (n / 4096 % 16)) (hexDig (n / 256 % 16))
      (hexDig (n / 16 % 16)) (hexDig (n % 16)) = some n := by
  unfold hex4Val
  rw [hexVal_hexDig (by omega), hexVal_hexDig (by omega),
    hexVal_hexDig (by omega), hexVal_hexDig (by omega)]
  simp only [Option.some.injEq]
  omega

theorem decDig_spec_fin :
    ∀ d : Fin 10, (decDig d.val).toNat = 48 + d.val ∧ isDigitC (decDig d.val) = true := by
  decide

theorem decDig_toNat {d : Nat} (h : d < 10) : (decDig d).toNat = 48 + d :=
  (decDig_spec_fin ⟨d, h⟩).1

theorem decDig_isDigit {d : Nat} (h : d < 10) : isDigitC (decDig d) = true :=
  (decDig_spec_fin ⟨d, h⟩).2

theorem natDecAux_eq (n : Nat) : ∀ acc, natDecAux n acc = natDec n ++ acc := by
  induction n using Nat.strong_induction_on with
  | _ n ih =>
    intro acc
    unfold natDec natDecAux
    by_cases h : n < 10
    · simp [h]
    · rw [dif_neg h, dif_neg h]
      rw [ih (n / 10) (Nat.div_lt_self (by omega) (by omega)),
        ih (n / 10) (Nat.div_lt_self (by omega) (by omega))]
      simp

theorem natDec_cons (n : Nat) : ∃ c t, natDec n = c :: t ∧ isDigitC c = true := by
  induction n using Nat.strong_induction_on with
  | _ n ih =>
    unfold natDec natDecAux
    by_cases h : n < 10
    · exact ⟨decDig n, [], by simp [h], decDig_isDigit h⟩
    · rw [dif_neg h, natDecAux_eq]
      obtain ⟨c, t, he, hd⟩ := ih (n / 10) (Nat.div_lt_self (by omega) (by omega))
      exact ⟨c, t ++ [decDig (n % 10)], by rw [he]; simp, hd⟩

theorem natDec_all_digits (n : Nat) : ∀ c ∈ natDec n, isDigitC c = true := by
  induction n using Nat.strong_induction_on with
  | _ n ih =>
    unfold natDec natDecAux
    by_cases h : n < 10
    · simp only [dif_pos h]
      intro c hc
      simp at hc
      subst hc
      exact decDig_isDigit h
    · rw [dif_neg h, natDecAux_eq]
      intro c hc
      simp at hc
      rcases hc with hc | hc
      · exact ih (n / 10) (Nat.div_lt_self (by omega) (by omega)) c hc
      · subst hc
        exact decDig_isDigit (by omega)


theorem parseDigits_append (cs : List Char) :
    ∀ rest acc, (∀ c ∈ cs, isDigitC c = true) → noDigitHead rest = true →
      parseDigits (cs ++ rest) acc = (List.foldl digStep acc cs, rest) := by
  induction cs with
  | nil =>
    intro rest acc _ hrest
    cases rest with
    | nil => simp [parseDigits]
    | cons c t =>
      simp [noDigitHead] at hrest
      simp [parseDigits, hrest]
  | cons c cs ih =>
    intro rest acc hall hrest
    have hc := hall c (by simp)
    simp only [List.cons_append, parseDigits, hc, if_true, List.foldl_cons]
    exact ih rest (digStep acc c) (fun x hx => hall x (by simp [hx])) hrest

theorem natDec_foldl (n : Nat) : List.foldl digStep 0 (natDec n) = n := by
  induction n using Nat.strong_induction_on with
  | _ n ih =>
    unfold natDec natDecAux
    by_cases h : n < 10
    · simp [h, digStep, decDig_toNat h]
    · rw [dif_neg h, natDecAux_eq]
      rw [List.foldl_append]
      rw [ih (n / 10) (Nat.div_lt_self (by omega) (by omega))]
      simp [digStep, decDig_toNat (show n % 10 < 10 by omega)]
      omega

theorem parseNatNum_natDec (n : Nat) (rest : List Char)
    (hrest : noDigitHead rest = true) :
    parseNatNum (natDec n ++ rest) = some (n, rest) := by
  obtain ⟨c, t, he, hd⟩ := natDec_cons n
  have hall := natDec_all_digits n
  rw [he] at hall ⊢
  simp only [List.cons_append, parseNatNum, hd, if_true]
  rw [parseDigits_append t rest (c.toNat - 48) (fun x hx => hall x (by simp [hx])) hrest]
  have : List.foldl digStep 0 (natDec n) = n := natDec_foldl n
  rw [he] at this
  simp only [List.foldl_cons] at this
  have hstep : digStep 0 c = c.toNat - 48 := by simp [digStep]
  rw [hstep] at this
  rw [this]

theorem parseNum_neg_eq (l : List Char) :
    parseNum ('-' :: l) =
      match parseNatNum l with
      | some (n, r) => some (-(n : Int), r)
      | none => none := by
  simp [parseNum]

theorem parseNum_other_eq (c : Char) (l : List Char) (h : ¬ c = '-') :
    parseNum (c :: l) =
      match parseNatNum (c :: l) with
      | some (n, r) => some ((n : Int), r)
      | none => none := by
  simp [parseNum, h]

theorem parseNum_intDec (i : Int) (rest : List Char)
    (hrest : noDigitHead rest = true) :
    parseNum (intDec i ++ rest) = some (i, rest) := by
  unfold intDec
  by_cases h : i < 0
  · rw [if_pos h, List.cons_append, parseNum_neg_eq,
      parseNatNum_natDec i.natAbs rest hrest]
    simp only [Option.some.injEq, Prod.mk.injEq, and_true]
    omega
  · rw [if_neg h]
    obtain ⟨c, t, he, hd⟩ := natDec_cons i.toNat
    rw [he]
    have hcne : ¬ c = '-' := fun hc => by
      subst hc
      exact absurd hd (by decide)
    rw [List.cons_append, parseNum_other_eq c (t ++ rest) hcne,
      ← List.cons_append, ← he, parseNatNum_natDec i.toNat rest hrest]
    simp only [Option.some.injEq, Prod.mk.injEq, and_true]
    omega

/-! ## Round-trip infrastructure: string literals -/

theorem psb_quote (fuel : Nat) (rest : List Char) :
    parseStrBody (fuel + 1) ('"' :: rest) = some ([], rest) := by
  simp [parseStrBody]

theorem psb_plain (fuel : Nat) (c : Char) (rest s r : List Char)
    (h1 : ¬ c = '"') (h2 : ¬ c = '\\') (h3 : ¬ c.toNat < 32)
    (htail : parseStrBody fuel rest = some (s, r)) :
    parseStrBody (fuel + 1) (c :: rest) = some (c :: s, r) := by
  simp [parseStrBody, h1, h2, h3, htail]

theorem psb_esc_short (fuel : Nat) (e ec : Char) (rest s r : List Char)
    (he : ¬ e = 'u') (hcode : escCode e = some ec)
    (htail : parseStrBody fuel rest = some (s, r)) :
    parseStrBody (fuel + 1) ('\\' :: e :: rest) = some (ec :: s, r) := by
  simp [parseStrBody, he, hcode, htail]

theorem psb_esc_u (fuel : Nat) (a b c0 d0 : Char) (n : Nat)
    (rest s r : List Char)
    (hhex : hex4Val a b c0 d0 = some n)
    (h1 : ¬(55296 ≤ n ∧ n < 56320)) (h2 : ¬(56320 ≤ n ∧ n < 57344))
    (htail : parseStrBody fuel rest = some (s, r)) :
    parseStrBody (fuel + 1) ('\\' :: 'u' :: a :: b :: c0 :: d0 :: rest) =
      some (Char.ofNat n :: s, r) := by
  simp [parseStrBody, hhex, h1, h2, htail]

theorem psb_esc_u_pair (fuel : Nat) (a b c0 d0 a2 b2 c2 d2 : Char) (n m : Nat)
    (rest s r : List Char)
    (hhex1 : hex4Val a b c0 d0 = some n)
    (hhex2 : hex4Val a2 b2 c2 d2 = some m)
    (hn : 55296 ≤ n ∧ n < 56320) (hm : 56320 ≤ m ∧ m < 57344)
    (htail : parseStrBody fuel rest = some (s, r)) :
    parseStrBody (fuel + 1)
        ('\\' :: 'u' :: a :: b :: c0 :: d0 ::
          '\\' :: 'u' :: a2 :: b2 :: c2 :: d2 :: rest) =
      some (Char.ofNat (65536 + (n - 55296) * 1024 + (m - 56320)) :: s, r) := by
  simp [parseStrBody, hhex1, hhex2, hn, hm, htail]

theorem escapeChar_roundtrip (fuel : Nat) (c : Char) (tail s r : List Char)
    (htail : parseStrBody fuel tail = some (s, r)) :
    parseStrBody (fuel + 1) (escapeChar c ++ tail) = some (c :: s, r) := by
  unfold escapeChar
  by_cases h1 : c = '"'
  · subst h1
    rw [if_pos rfl]
    exact psb_esc_short fuel '"' '"' tail s r (by decide) (by decide) htail
  · rw [if_neg h1]
    by_cases h2 : c = '\\'
    · subst h2
      rw [if_pos rfl]
      exact psb_esc_short fuel '\\' '\\' tail s r (by decide) (by decide) htail
    · rw [if_neg h2]
      by_cases h3 : c = '\x08'
      · subst h3
        rw [if_pos rfl]
        exact psb_esc_short fuel 'b' '\x08' tail s r (by decide) (by decide) htail
      · rw [if_neg h3]
        by_cases h4 : c = '\x09'
        · subst h4
          rw [if_pos rfl]
          exact psb_esc_short fuel 't' '\x09' tail s r (by decide) (by decide) htail
        · rw [if_neg h4]
          by_cases h5 : c = '\x0a'
          · subst h5
            rw [if_pos rfl]
            exact psb_esc_short fuel 'n' '\x0a' tail s r (by decide) (by decide) htail
          · rw [if_neg h5]
            by_cases h6 : c = '\x0c'
            · subst h6
              rw [if_pos rfl]
              exact psb_esc_short fuel 'f' '\x0c' tail s r (by decide) (by decide) htail
            · rw [if_neg h6]
              by_cases h7 : c = '\x0d'
              · subst h7
                rw [if_pos rfl]
                exact psb_esc_short fuel 'r' '\x0d' tail s r (by decide) (by decide) htail
              · rw [if_neg h7]
                by_cases h8 : c.toNat < 32
                · rw [if_pos h8]
                  rw [show ('\\' :: 'u' :: hex4 c.toNat ++ tail) =
                    '\\' :: 'u' :: hexDig (c.toNat / 4096 % 16) ::
                      hexDig (c.toNat / 256 % 16) :: hexDig (c.toNat / 16 % 16) ::
                      hexDig (c.toNat % 16) :: tail from by simp [hex4]]
                  rw [psb_esc_u fuel _ _ _ _ c.toNat tail s r
                    (hex4Val_hex4 (by omega)) (by omega) (by omega) htail]
                  rw [Char.ofNat_toNat]
                · rw [if_neg h8]
                  by_cases h9 : c.toNat ≤ 126
                  · rw [if_pos h9]
                    rw [show ([c] ++ tail) = c :: tail from rfl]
                    exact psb_plain fuel c tail s r h1 h2 h8 htail
                  · rw [if_neg h9]
                    have hval := char_valid_range c
                    by_cases h10 : c.toNat < 65536
                    · rw [if_pos h10]
                      rw [show ('\\' :: 'u' :: hex4 c.toNat ++ tail) =
                        '\\' :: 'u' :: hexDig (c.toNat / 4096 % 16) ::
                          hexDig (c.toNat / 256 % 16) :: hexDig (c.toNat / 16 % 16) ::
                          hexDig (c.toNat % 16) :: tail from by simp [hex4]]
                      rw [psb_esc_u fuel _ _ _ _ c.toNat tail s r
                        (hex4Val_hex4 (by omega)) (by omega) (by omega) htail]
                      rw [Char.ofNat_toNat]
                    · rw [if_neg h10]
                      rw [show (('\\' :: 'u' :: hex4 (55296 + (c.toNat - 65536) / 1024) ++
                          '\\' :: 'u' :: hex4 (56320 + (c.toNat - 65536) % 1024)) ++ tail) =
                        '\\' :: 'u' :: hexDig ((55296 + (c.toNat - 65536) / 1024) / 4096 % 16) ::
                          hexDig ((55296 + (c.toNat - 65536) / 1024) / 256 % 16) ::
                          hexDig ((55296 + (c.toNat - 65536) / 1024) / 16 % 16) ::
                          hexDig ((55296 + (c.toNat - 65536) / 1024) % 16) ::
                        '\\' :: 'u' :: hexDig ((56320 + (c.toNat - 65536) % 1024) / 4096 % 16) ::
                          hexDig ((56320 + (c.toNat - 65536) % 1024) / 256 % 16) ::
                          hexDig ((56320 + (c.toNat - 65536) % 1024) / 16 % 16) ::
                          hexDig ((56320 + (c.toNat - 65536) % 1024) % 16) :: tail from by
                        simp [hex4]]
                      rw [psb_esc_u_pair fuel _ _ _ _ _ _ _ _
                        (55296 + (c.toNat - 65536) / 1024)
                        (56320 + (c.toNat - 65536) % 1024) tail s r
                        (hex4Val_hex4 (by omega)) (hex4Val_hex4 (by omega))
                        (by omega) (by omega) htail]
                      have harg : 65536 + (55296 + (c.toNat - 65536) / 1024 - 55296) * 1024 +
                          (56320 + (c.toNat - 65536) % 1024 - 56320) = c.toNat := by
                        omega
                      rw [harg, Char.ofNat_toNat]

theorem parseStrBody_escList (l : List Char) :
    ∀ fuel rest, l.length + 1 ≤ fuel →
      parseStrBody fuel (escList l ++ '"' :: rest) = some (l, rest) := by
  induction l with
  | nil =>
    intro fuel rest hfuel
    obtain ⟨f, rfl⟩ : ∃ f, fuel = f + 1 := ⟨fuel - 1, by omega⟩
    simp only [escList, List.nil_append]
    exact psb_quote f rest
  | cons c t ih =>
    intro fuel rest hfuel
    obtain ⟨f, rfl⟩ : ∃ f, fuel = f + 1 := ⟨fuel - 1, by omega⟩
    simp only [escList, List.append_assoc]
    exact escapeChar_roundtrip f c (escList t ++ '"' :: rest) t rest
      (ih f rest (by simp at hfuel; omega))

/-! ## Round-trip infrastructure: measures, heads, whitespace -/


theorem nfV_pos (v : JValue) : 1 ≤ nfV v := by
  cases v with
  | jArr xs => cases xs <;> simp [nfV]
  | jObj fs => cases fs <;> simp [nfV]
  | jNull => simp [nfV]
  | jBool b => simp [nfV]
  | jNum n => simp [nfV]
  | jStr s => simp [nfV]

set_option maxHeartbeats 1000000 in
theorem escapeChar_len_pos (c : Char) : 1 ≤ (escapeChar c).length := by
  unfold escapeChar
  split_ifs <;> simp [hex4]

theorem escList_len_ge (l : List Char) : l.length ≤ (escList l).length := by
  induction l with
  | nil => simp [escList]
  | cons c t ih =>
    have := escapeChar_len_pos c
    simp [escList]
    omega


theorem intDec_cons (i : Int) :
    ∃ c t, intDec i = c :: t ∧ (c = '-' ∨ isDigitC c = true) := by
  unfold intDec
  by_cases h : i < 0
  · exact ⟨'-', natDec i.natAbs, by rw [if_pos h], Or.inl rfl⟩
  · obtain ⟨c, t, he, hd⟩ := natDec_cons i.toNat
    exact ⟨c, t, by rw [if_neg h, he], Or.inr hd⟩

theorem dumps_cons (v : JValue) :
    ∃ c t, dumps v = c :: t ∧ headOk c := by
  cases v with
  | jNull => exact ⟨'n', _, rfl, Or.inl rfl⟩
  | jBool b =>
    cases b
    · exact ⟨'f', _, rfl, Or.inr (Or.inr (Or.inl rfl))⟩
    · exact ⟨'t', _, rfl, Or.inr (Or.inl rfl)⟩
  | jNum i =>
    obtain ⟨c, t, he, hd⟩ := intDec_cons i
    exact ⟨c, t, by rw [show dumps (.jNum i) = intDec i from rfl, he], by
      rcases hd with hd | hd
      · exact Or.inr (Or.inr (Or.inr (Or.inr (Or.inr (Or.inr (Or.inl hd))))))
      · exact Or.inr (Or.inr (Or.inr (Or.inr (Or.inr (Or.inr (Or.inr hd))))))⟩
  | jStr s =>
    exact ⟨'"', escList s.data ++ ['"'], by simp [dumps, strLit],
      Or.inr (Or.inr (Or.inr (Or.inl rfl)))⟩
  | jArr xs =>
    cases xs with
    | nil => exact ⟨'[', [']'], rfl, Or.inr (Or.inr (Or.inr (Or.inr (Or.inl rfl))))⟩
    | cons x t =>
      exact ⟨'[', dumps x ++ dumpsArr t ++ [']'], by simp [dumps],
        Or.inr (Or.inr (Or.inr (Or.inr (Or.inl rfl))))⟩
  | jObj fs =>
    cases fs with
    | nil =>
      exact ⟨'\x7b', ['\x7d'], rfl,
        Or.inr (Or.inr (Or.inr (Or.inr (Or.inr (Or.inl rfl)))))⟩
    | cons f t =>
      obtain ⟨k, v⟩ := f
      exact ⟨'\x7b', strLit k ++ ':' :: ' ' :: dumps v ++ dumpsObj t ++ ['\x7d'],
        by simp [dumps],
        Or.inr (Or.inr (Or.inr (Or.inr (Or.inr (Or.inl rfl)))))⟩

theorem headOk_facts {c : Char} (h : headOk c) :
    isWs c = false ∧ ¬ c = ']' ∧ ¬ c = ',' ∧ ¬ c = '\x7d' ∧ ¬ c = ':' := by
  rcases h with h | h | h | h | h | h | h | h
  all_goals try (subst h; exact ⟨by decide, by decide, by decide, by decide, by decide⟩)
  refine ⟨?_, ?_, ?_, ?_, ?_⟩
  · by_contra hws
    simp only [Bool.not_eq_false, isWs, decide_eq_true_eq] at hws
    rcases hws with hw | hw | hw | hw <;> (subst hw; exact absurd h (by decide))
  · intro he; subst he; exact absurd h (by decide)
  · intro he; subst he; exact absurd h (by decide)
  · intro he; subst he; exact absurd h (by decide)
  · intro he; subst he; exact absurd h (by decide)

theorem noDigitHead_dumpsArr (xs : List JValue) (rest : List Char) :
    noDigitHead (dumpsArr xs ++ ']' :: rest) = true := by
  cases xs with
  | nil => simp [dumpsArr, noDigitHead, isDigitC]
  | cons y ys => simp [dumpsArr, noDigitHead, isDigitC]

theorem noDigitHead_dumpsObj (fs : List (String × JValue)) (rest : List Char) :
    noDigitHead (dumpsObj fs ++ '\x7d' :: rest) = true := by
  cases fs with
  | nil => simp [dumpsObj, noDigitHead, isDigitC]
  | cons f fs2 =>
    obtain ⟨k, v⟩ := f
    simp [dumpsObj, noDigitHead, isDigitC]

theorem skipWs_not {c : Char} (h : isWs c = false) (r : List Char) :
    skipWs (c :: r) = c :: r := by
  simp [skipWs, h]

theorem parseVal_ws (fuel : Nat) (w : List Char) :
    parseVal fuel (' ' :: w) = parseVal fuel w := by
  cases fuel with
  | zero => rfl
  | succ f =>
    simp only [parseVal]
    rw [show skipWs (' ' :: w) = skipWs w from by simp [skipWs, isWs]]

theorem parseItems_ws (fuel : Nat) (w : List Char) :
    parseItems fuel (' ' :: w) = parseItems fuel w := by
  cases fuel with
  | zero => rfl
  | succ f =>
    simp only [parseItems]
    rw [parseVal_ws]

theorem parseFields_ws (fuel : Nat) (w : List Char) :
    parseFields fuel (' ' :: w) = parseFields fuel w := by
  cases fuel with
  | zero => rfl
  | succ f =>
    simp only [parseFields]
    rw [show skipWs (' ' :: w) = skipWs w from by simp [skipWs, isWs]]

/-! ## Round-trip infrastructure: parser branch lemmas -/

theorem parseVal_null (fuel : Nat) (rest : List Char) :
    parseVal (fuel + 1) ('n' :: 'u' :: 'l' :: 'l' :: rest) =
      some (.jNull, rest) := by
  simp [parseVal, skipWs, isWs, stripPfx]

theorem parseVal_true (fuel : Nat) (rest : List Char) :
    parseVal (fuel + 1) ('t' :: 'r' :: 'u' :: 'e' :: rest) =
      some (.jBool true, rest) := by
  simp [parseVal, skipWs, isWs, stripPfx]

theorem parseVal_false (fuel : Nat) (rest : List Char) :
    parseVal (fuel + 1) ('f' :: 'a' :: 'l' :: 's' :: 'e' :: rest) =
      some (.jBool false, rest) := by
  simp [parseVal, skipWs, isWs, stripPfx]

theorem parseVal_num (fuel : Nat) (c : Char) (rest : List Char) (n : Int)
    (r : List Char) (hc : c = '-' ∨ isDigitC c = true)
    (hp : parseNum (c :: rest) = some (n, r)) :
    parseVal (fuel + 1) (c :: rest) = some (.jNum n, r) := by
  have hws : isWs c = false := by
    rcases hc with h | h
    · subst h; decide
    · by_contra hws
      simp only [Bool.not_eq_false, isWs, decide_eq_true_eq] at hws
      rcases hws with hw | hw | hw | hw <;> (subst hw; exact absurd h (by decide))
  have h1 : ¬ c = 'n' := by
    rcases hc with h | h
    · subst h; decide
    · intro he; subst he; exact absurd h (by decide)
  have h2 : ¬ c = 't' := by
    rcases hc with h | h
    · subst h; decide
    · intro he; subst he; exact absurd h (by decide)
  have h3 : ¬ c = 'f' := by
    rcases hc with h | h
    · subst h; decide
    · intro he; subst he; exact absurd h (by decide)
  have h4 : ¬ c = '"' := by
    rcases hc with h | h
    · subst h; decide
    · intro he; subst he; exact absurd h (by decide)
  have h5 : ¬ c = '[' := by
    rcases hc with h | h
    · subst h; decide
    · intro he; subst he; exact absurd h (by decide)
  have h6 : ¬ c = '\x7b' := by
    rcases hc with h | h
    · subst h; decide
    · intro he; subst he; exact absurd h (by decide)
  simp [parseVal, skipWs_not hws, h1, h2, h3, h4, h5, h6, hp]

theorem parseVal_str (fuel : Nat) (s : String) (rest : List Char) :
    parseVal (fuel + 1) ('"' :: (escList s.data ++ '"' :: rest)) =
      some (.jStr s, rest) := by
  have hlen : s.data.length + 1 ≤ (escList s.data ++ '"' :: rest).length + 1 := by
    have h1 := escList_len_ge s.data
    have h2 : s.length = s.data.length := rfl
    simp [List.length_append]
    omega
  simp only [parseVal, skipWs_not (show isWs '"' = false by decide)]
  rw [parseStrBody_escList s.data _ rest hlen]
  simp

theorem parseVal_arr_nil (fuel : Nat) (rest : List Char) :
    parseVal (fuel + 1) ('[' :: ']' :: rest) = some (.jArr [], rest) := by
  simp [parseVal, skipWs, isWs]

theorem parseVal_arr_cons (fuel : Nat) (c : Char) (t rest : List Char)
    (vs : List JValue) (hhd : headOk c)
    (hitems : parseItems fuel (c :: t) = some (vs, rest)) :
    parseVal (fuel + 1) ('[' :: c :: t) = some (.jArr vs, rest) := by
  obtain ⟨hws, hrb, _, _, _⟩ := headOk_facts hhd
  simp [parseVal, skipWs_not (show isWs '[' = false by decide),
    skipWs_not hws, hrb, hitems]

theorem parseVal_obj_nil (fuel : Nat) (rest : List Char) :
    parseVal (fuel + 1) ('\x7b' :: '\x7d' :: rest) = some (.jObj [], rest) := by
  simp [parseVal, skipWs, isWs]

theorem parseVal_obj_cons (fuel : Nat) (t rest : List Char)
    (fs : List (String × JValue))
    (hfields : parseFields fuel ('"' :: t) = some (fs, rest)) :
    parseVal (fuel + 1) ('\x7b' :: '"' :: t) = some (.jObj fs, rest) := by
  simp [parseVal, skipWs, isWs, hfields]

theorem parseItems_last (fuel : Nat) (cs : List Char) (v : JValue)
    (rest : List Char) (hv : parseVal fuel cs = some (v, ']' :: rest)) :
    parseItems (fuel + 1) cs = some ([v], rest) := by
  simp [parseItems, hv, skipWs, isWs]

theorem parseItems_more (fuel : Nat) (cs rest2 out : List Char) (v : JValue)
    (ys : List JValue)
    (hv : parseVal fuel cs = some (v, ',' :: rest2))
    (hnext : parseItems fuel rest2 = some (ys, out)) :
    parseItems (fuel + 1) cs = some (v :: ys, out) := by
  simp [parseItems, hv, skipWs, isWs, hnext]

theorem parseFields_cons (fuel : Nat) (k : String) (z r2 : List Char)
    (v : JValue) (fs : List (String × JValue)) (out : List Char)
    (hval : parseVal fuel (' ' :: z) = some (v, r2))
    (hrest :
      (∃ r3, r2 = '\x7d' :: r3 ∧ fs = [] ∧ out = r3) ∨
      (∃ r3, r2 = ',' :: r3 ∧ parseFields fuel r3 = some (fs, out))) :
    parseFields (fuel + 1)
        ('"' :: (escList k.data ++ '"' :: ':' :: ' ' :: z)) =
      some ((k, v) :: fs, out) := by
  have hlen : k.data.length + 1 ≤
      (escList k.data ++ '"' :: ':' :: ' ' :: z).length + 1 := by
    have h1 := escList_len_ge k.data
    have h2 : k.length = k.data.length := rfl
    simp [List.length_append]
    omega
  simp only [parseFields, skipWs_not (show isWs '"' = false by decide)]
  rw [if_pos trivial]
  rw [parseStrBody_escList k.data _ (':' :: ' ' :: z) hlen]
  simp only [skipWs_not (show isWs ':' = false by decide)]
  rw [if_pos trivial, hval]
  rcases hrest with ⟨r3, he, hfs, hout⟩ | ⟨r3, he, hnext⟩
  · subst he hfs hout
    simp [skipWs, isWs, String.mk]
  · subst he
    simp [skipWs, isWs, hnext, String.mk]

/-! ## The round-trip theorem -/

theorem parse_round (fuel : Nat) :
    (∀ v rest, nfV v ≤ fuel → noDigitHead rest = true →
      parseVal fuel (dumps v ++ rest) = some (v, rest)) ∧
    (∀ x xs rest, nfI (x :: xs) ≤ fuel →
      parseItems fuel (dumps x ++ (dumpsArr xs ++ ']' :: rest)) =
        some (x :: xs, rest)) ∧
    (∀ k v fs rest, nfF ((k, v) :: fs) ≤ fuel →
      parseFields fuel ('"' :: (escList k.data ++ '"' :: ':' :: ' ' ::
          (dumps v ++ (dumpsObj fs ++ '\x7d' :: rest)))) =
        some ((k, v) :: fs, rest)) := by
  induction fuel with
  | zero =>
    refine ⟨?_, ?_, ?_⟩
    · intro v rest h _
      exact absurd h (by have := nfV_pos v; omega)
    · intro x xs rest h
      exact absurd h (by simp [nfI])
    · intro k v fs rest h
      exact absurd h (by simp [nfF])
  | succ fuel ih =>
    obtain ⟨ihV, ihI, ihF⟩ := ih
    refine ⟨?_, ?_, ?_⟩
    · -- values
      intro v rest hnf hnd
      cases v with
      | jNull => simpa [dumps] using parseVal_null fuel rest
      | jBool b =>
        cases b
        · simpa [dumps] using parseVal_false fuel rest
        · simpa [dumps] using parseVal_true fuel rest
      | jNum i =>
        obtain ⟨c, t, he, hc⟩ := intDec_cons i
        have hd : dumps (.jNum i) = c :: t := by
          rw [show dumps (.jNum i) = intDec i from rfl, he]
        have hp : parseNum (c :: (t ++ rest)) = some (i, rest) := by
          rw [← List.cons_append, ← he]
          exact parseNum_intDec i rest hnd
        rw [hd, List.cons_append]
        exact parseVal_num fuel c (t ++ rest) i rest hc hp
      | jStr s =>
        have hform : dumps (.jStr s) ++ rest =
            '"' :: (escList s.data ++ '"' :: rest) := by
          simp [dumps, strLit]
        rw [hform]
        exact parseVal_str fuel s rest
      | jArr xs =>
        cases xs with
        | nil => simpa [dumps] using parseVal_arr_nil fuel rest
        | cons x xs =>
          obtain ⟨c, t, hct, hhd⟩ := dumps_cons x
          have hx : nfI (x :: xs) ≤ fuel := by
            simp [nfV] at hnf
            omega
          have hitems :
              parseItems fuel (c :: (t ++ (dumpsArr xs ++ ']' :: rest))) =
                some (x :: xs, rest) := by
            rw [← List.cons_append, ← hct]
            exact ihI x xs rest hx
          have hform : dumps (.jArr (x :: xs)) ++ rest =
              '[' :: c :: (t ++ (dumpsArr xs ++ ']' :: rest)) := by
            simp [dumps, hct]
          rw [hform]
          exact parseVal_arr_cons fuel c _ rest (x :: xs) hhd hitems
      | jObj fs =>
        cases fs with
        | nil => simpa [dumps] using parseVal_obj_nil fuel rest
        | cons f fs =>
          obtain ⟨k, v⟩ := f
          have hb : nfF ((k, v) :: fs) ≤ fuel := by
            simp [nfV] at hnf
            omega
          have hfields := ihF k v fs rest hb
          have hform : dumps (.jObj ((k, v) :: fs)) ++ rest =
              '\x7b' :: '"' :: (escList k.data ++ '"' :: ':' :: ' ' ::
                (dumps v ++ (dumpsObj fs ++ '\x7d' :: rest))) := by
            simp [dumps, strLit]
          rw [hform]
          exact parseVal_obj_cons fuel _ rest _ hfields
    · -- array items
      intro x xs rest hnf
      have hx : nfV x ≤ fuel := by
        simp [nfI] at hnf
        omega
      cases xs with
      | nil =>
        have hv : parseVal fuel (dumps x ++ ']' :: rest) =
            some (x, ']' :: rest) :=
          ihV x (']' :: rest) hx (by simp [noDigitHead, isDigitC])
        have hform : dumps x ++ (dumpsArr [] ++ ']' :: rest) =
            dumps x ++ ']' :: rest := by
          simp [dumpsArr]
        rw [hform]
        exact parseItems_last fuel _ x rest hv
      | cons y ys =>
        have hv : parseVal fuel
            (dumps x ++ (',' :: ' ' :: (dumps y ++ (dumpsArr ys ++ ']' :: rest)))) =
            some (x, ',' :: ' ' :: (dumps y ++ (dumpsArr ys ++ ']' :: rest))) :=
          ihV x _ hx (by simp [noDigitHead, isDigitC])
        have hnext : parseItems fuel
            (' ' :: (dumps y ++ (dumpsArr ys ++ ']' :: rest))) =
            some (y :: ys, rest) := by
          rw [parseItems_ws]
          refine ihI y ys rest ?_
          simp [nfI] at hnf ⊢
          omega
        have hform : dumps x ++ (dumpsArr (y :: ys) ++ ']' :: rest) =
            dumps x ++ (',' :: ' ' :: (dumps y ++ (dumpsArr ys ++ ']' :: rest))) := by
          simp [dumpsArr]
        rw [hform]
        exact parseItems_more fuel _ _ rest x (y :: ys) hv hnext
    · -- object fields
      intro k v fs rest hnf
      have hvb : nfV v ≤ fuel := by
        simp [nfF] at hnf
        omega
      have hval : parseVal fuel
          (' ' :: (dumps v ++ (dumpsObj fs ++ '\x7d' :: rest))) =
          some (v, dumpsObj fs ++ '\x7d' :: rest) := by
        rw [parseVal_ws]
        exact ihV v _ hvb (noDigitHead_dumpsObj fs rest)
      refine parseFields_cons fuel k _ _ v fs rest hval ?_
      cases fs with
      | nil =>
        exact Or.inl ⟨rest, by simp [dumpsObj], rfl, rfl⟩
      | cons f2 fs2 =>
        obtain ⟨k2, v2⟩ := f2
        refine Or.inr ⟨' ' :: ('"' :: (escList k2.data ++ '"' :: ':' :: ' ' ::
          (dumps v2 ++ (dumpsObj fs2 ++ '\x7d' :: rest)))), ?_, ?_⟩
        · simp [dumpsObj, strLit]
        · rw [parseFields_ws]
          refine ihF k2 v2 fs2 rest ?_
          simp [nfF] at hnf ⊢
          omega

theorem nf_le_len (n : Nat) :
    (∀ v, nfV v ≤ n → nfV v ≤ (dumps v).length + 1) ∧
    (∀ xs, nfI xs ≤ n → nfI xs ≤ (dumpsArr xs).length) ∧
    (∀ fs, nfF fs ≤ n → nfF fs ≤ (dumpsObj fs).length) := by
  induction n with
  | zero =>
    refine ⟨?_, ?_, ?_⟩
    · intro v h
      exact absurd h (by have := nfV_pos v; omega)
    · intro xs h
      cases xs with
      | nil => simp [nfI]
      | cons x t => exact absurd h (by simp [nfI])
    · intro fs h
      cases fs with
      | nil => simp [nfF]
      | cons f t =>
        obtain ⟨k, v⟩ := f
        exact absurd h (by simp [nfF])
  | succ n ih =>
    obtain ⟨ihV, ihI, ihF⟩ := ih
    refine ⟨?_, ?_, ?_⟩
    · intro v h
      cases v with
      | jNull => simp [nfV, dumps]
      | jBool b => cases b <;> simp [nfV, dumps]
      | jNum i => simp [nfV]
      | jStr s => simp [nfV]
      | jArr xs =>
        cases xs with
        | nil => simp [nfV, dumps]
        | cons x t =>
          have h1 : nfV x ≤ n := by simp [nfV, nfI] at h; omega
          have h2 : nfI t ≤ n := by simp [nfV, nfI] at h; omega
          have b1 := ihV x h1
          have b2 := ihI t h2
          simp [nfV, nfI, dumps, List.length_append] at *
          omega
      | jObj fs =>
        cases fs with
        | nil => simp [nfV, dumps]
        | cons f t =>
          obtain ⟨k, v⟩ := f
          have h1 : nfV v ≤ n := by simp [nfV, nfF] at h; omega
          have h2 : nfF t ≤ n := by simp [nfV, nfF] at h; omega
          have b1 := ihV v h1
          have b2 := ihF t h2
          simp [nfV, nfF, dumps, List.length_append] at *
          omega
    · intro xs h
      cases xs with
      | nil => simp [nfI, dumpsArr]
      | cons x t =>
        have h1 : nfV x ≤ n := by simp [nfI] at h; omega
        have h2 : nfI t ≤ n := by simp [nfI] at h; omega
        have b1 := ihV x h1
        have b2 := ihI t h2
        simp [nfI, dumpsArr, List.length_append] at *
        omega
    · intro fs h
      cases fs with
      | nil => simp [nfF, dumpsObj]
      | cons f t =>
        obtain ⟨k, v⟩ := f
        have h1 : nfV v ≤ n := by simp [nfF] at h; omega
        have h2 : nfF t ≤ n := by simp [nfF] at h; omega
        have b1 := ihV v h1
        have b2 := ihF t h2
        simp [nfF, dumpsObj, List.length_append] at *
        omega

/-- Serializing any JSON value and parsing the result returns exactly
that value: the core of the wire-contract claims. -/
theorem parse_dumps (v : JValue) : parse (dumpsStr v) = some v := by
  have hb : nfV v ≤ (dumps v).length + 1 := (nf_le_len (nfV v)).1 v le_rfl
  have h1 : parseVal ((dumps v).length + 1) (dumps v ++ []) = some (v, []) :=
    (parse_round _).1 v [] hb rfl
  rw [List.append_nil] at h1
  simp only [parse, dumpsStr]
  rw [show ((dumps v).asString).length = (dumps v).length from rfl,
    show ((dumps v).asString).data = dumps v from rfl, h1]
  simp [skipWs]

/-! ## Sample instances (used by witnesses) and guard helpers -/



theorem orDefault_spec (o : Option String) :
    ((o = none ∨ o = some "") → orDefault o = "default") ∧
    (∀ s, o = some s → ¬ s = "" → orDefault o = s) ∧
    ¬ orDefault o = "" := by
  cases o with
  | none =>
    refine ⟨fun _ => rfl, ?_, by decide⟩
    intro s hs
    cases hs
  | some v =>
    by_cases hv : v = ""
    · subst hv
      refine ⟨fun _ => by simp [orDefault], ?_, by simp [orDefault]⟩
      intro s hs hne
      cases hs
      exact absurd rfl hne
    · refine ⟨?_, ?_, ?_⟩
      · intro h
        rcases h with h | h
        · cases h
        · cases h
          exact absurd rfl hv
      · intro s hs _
        cases hs
        simp [orDefault, hv]
      · simp [orDefault, hv]

/-! ## Claim theorems -/


/-- C1: for every request context and account id, the admin-or-root
guard authorizes (returns `none`) iff the role is ROOT, or the role is
ADMIN and the context's account equals the given account id; in every
other case it returns exactly the PERMISSION_DENIED payload with
message "ROOT or account ADMIN role required" (whose JSON parses back
to that envelope).  The guard is a total function, so it never
raises. -/
theorem requireAdminOrRoot_spec (ctx : RequestContext) (accountId : String) :
    (_require_admin_or_root ctx accountId = none ↔
      (ctx.role = Role.ROOT ∨
        (ctx.role = Role.ADMIN ∧ ctx.user.account = accountId))) ∧
    (¬(ctx.role = Role.ROOT ∨
        (ctx.role = Role.ADMIN ∧ ctx.user.account = accountId)) →
      _require_admin_or_root ctx accountId =
        some (permission_denied "ROOT or account ADMIN role required")) ∧
    (∀ s, _require_admin_or_root ctx accountId = some s →
      parse s = some (pdObj "ROOT or account ADMIN role required")) := by
  unfold _require_admin_or_root
  by_cases h1 : ctx.role = Role.ROOT
  · refine ⟨by simp [h1], fun hc => absurd (Or.inl h1) hc, ?_⟩
    intro s hs
    rw [if_pos h1] at hs
    cases hs
  · by_cases h2 : ctx.role = Role.ADMIN ∧ ctx.user.account = accountId
    · refine ⟨by simp [h1, h2], fun hc => absurd (Or.inr h2) hc, ?_⟩
      intro s hs
      rw [if_neg h1, if_pos h2] at hs
      cases hs
    · refine ⟨by simp [h1, h2], fun _ => by simp [h1, h2], ?_⟩
      intro s hs
      rw [if_neg h1, if_neg h2] at hs
      cases hs
      exact parse_dumps (pdObj "ROOT or account ADMIN role required")

theorem requireAdminOrRoot_spec_witness :
    _require_admin_or_root
        { user := { account := "acme", user := "u", agent := "a" },
          role := Role.USER } "acme" =
      some (permission_denied "ROOT or account ADMIN role required") :=
  (requireAdminOrRoot_spec
    { user := { account := "acme", user := "u", agent := "a" },
      role := Role.USER } "acme").2.1 (by decide)

/-- C2: for every request context, the root guard authorizes (returns
`none`) iff the role is ROOT; for every other role it returns exactly
the PERMISSION_DENIED payload with message "ROOT role required" (whose
JSON parses back to that envelope).  The guard is a total function, so
it never raises. -/
theorem requireRoot_spec (ctx : RequestContext) :
    (_require_root ctx = none ↔ ctx.role = Role.ROOT) ∧
    (¬ ctx.role = Role.ROOT →
      _require_root ctx = some (permission_denied "ROOT role required")) ∧
    (∀ s, _require_root ctx = some s →
      parse s = some (pdObj "ROOT role required")) := by
  unfold _require_root
  by_cases h : ctx.role = Role.ROOT
  · refine ⟨by simp [h], fun hc => absurd h hc, ?_⟩
    intro s hs
    rw [if_neg (by simp [h])] at hs
    cases hs
  · refine ⟨by simp [h], fun _ => by simp [h], ?_⟩
    intro s hs
    rw [if_pos h] at hs
    cases hs
    exact parse_dumps (pdObj "ROOT role required")

theorem requireRoot_spec_witness :
    _require_root
        { user := { account := "acme", user := "u", agent := "a" },
          role := Role.ADMIN } =
      some (permission_denied "ROOT role required") :=
  (requireRoot_spec
    { user := { account := "acme", user := "u", agent := "a" },
      role := Role.ADMIN }).2.1 (by decide)

/-- C3: with no identity cached in the session slot, the request
context builder returns exactly the anonymous
UserIdentifier("default","default","default") context with Role
ROOT. -/
theorem requestContext_default_spec :
    get_request_context none =
      { user := { account := "default", user := "default", agent := "default" },
        role := Role.ROOT } := rfl

/-- C4: for every cached ResolvedIdentity, the built context copies the
Role verbatim and maps each of account/user/agent to the corresponding
identity field, substituting "default" exactly when that field is
missing (`none`) or empty; consequently no field of the result is ever
absent or empty. -/
theorem requestContext_identity_spec (id : ResolvedIdentity) :
    (get_request_context (some id)).role = id.role ∧
    ((id.account_id = none ∨ id.account_id = some "") →
      (get_request_context (some id)).user.account = "default") ∧
    (∀ s, id.account_id = some s → ¬ s = "" →
      (get_request_context (some id)).user.account = s) ∧
    ((id.user_id = none ∨ id.user_id = some "") →
      (get_request_context (some id)).user.user = "default") ∧
    (∀ s, id.user_id = some s → ¬ s = "" →
      (get_request_context (some id)).user.user = s) ∧
    ((id.agent_id = none ∨ id.agent_id = some "") →
      (get_request_context (some id)).user.agent = "default") ∧
    (∀ s, id.agent_id = some s → ¬ s = "" →
      (get_request_context (some id)).user.agent = s) ∧
    ¬ (get_request_context (some id)).user.account = "" ∧
    ¬ (get_request_context (some id)).user.user = "" ∧
    ¬ (get_request_context (some id)).user.agent = "" :=
  ⟨rfl,
   (orDefault_spec id.account_id).1,
   (orDefault_spec id.account_id).2.1,
   (orDefault_spec id.user_id).1,
   (orDefault_spec id.user_id).2.1,
   (orDefault_spec id.agent_id).1,
   (orDefault_spec id.agent_id).2.1,
   (orDefault_spec id.account_id).2.2,
   (orDefault_spec id.user_id).2.2,
   (orDefault_spec id.agent_id).2.2⟩

theorem requestContext_identity_spec_witness :
    (get_request_context (some
      { account_id := none, user_id := some "", agent_id := some "ag",
        role := Role.ADMIN })).role = Role.ADMIN ∧
    (get_request_context (some
      { account_id := none, user_id := some "", agent_id := some "ag",
        role := Role.ADMIN })).user.account = "default" ∧
    (get_request_context (some
      { account_id := none, user_id := some "", agent_id := some "ag",
        role := Role.ADMIN })).user.user = "default" ∧
    (get_request_context (some
      { account_id := none, user_id := some "", agent_id := some "ag",
        role := Role.ADMIN })).user.agent = "ag" :=
  ⟨(requestContext_identity_spec _).1,
   (requestContext_identity_spec _).2.1 (Or.inl rfl),
   (requestContext_identity_spec _).2.2.2.1 (Or.inr rfl),
   (requestContext_identity_spec _).2.2.2.2.2.2.1 "ag" rfl (by decide)⟩

/-- C5: identity resolution returns `none` for every token when no
key-store is configured, and returns `none` (rather than propagating)
whenever the key-store's lookup raises.  `resolve_identity` is a total
function, so resolution failure is indistinguishable from absence and
the resolver never raises. -/
theorem resolve_identity_spec :
    (∀ token, resolve_identity none token = none) ∧
    (∀ (m : APIKeyManager) (token : String) (e : Unit),
      m.resolve token = Except.error e →
      resolve_identity (some m) token = none) := by
  refine ⟨fun _ => rfl, ?_⟩
  intro m token e he
  simp only [resolve_identity]
  rw [he]

theorem resolve_identity_spec_witness :
    sampleManager.resolve "any-token" = Except.error () ∧
    resolve_identity (some sampleManager) "any-token" = none :=
  ⟨rfl, resolve_identity_spec.2 sampleManager "any-token" () rfl⟩

/-- C9: formatting a domain error yields a JSON string that parses back
to the envelope object with error=true and that code, message and
details; a permission denial parses back to the envelope with code
PERMISSION_DENIED, the given message, and no details key. -/
theorem error_envelope_roundtrip (e : OpenVikingError) (m : String) :
    parse (format_error e) =
      some (.jObj [("error", .jBool true), ("code", .jStr e.code),
        ("message", .jStr e.message), ("details", e.details)]) ∧
    parse (permission_denied m) =
      some (.jObj [("error", .jBool true),
        ("code", .jStr "PERMISSION_DENIED"), ("message", .jStr m)]) :=
  ⟨parse_dumps _, parse_dumps _⟩

/-- C6: when the key manager is absent (dev mode), every privileged
admin operation that passed its role gate is rejected with the distinct
denial "Auth not configured (dev mode)", and no external key-manager or
service operation is invoked (the call trace is empty). -/
theorem devMode_denial_spec (app : AppContext)
    (identity : Option ResolvedIdentity) (aid uid role : String)
    (happ : app.api_key_manager = none) :
    ((get_request_context identity).role = Role.ROOT →
      admin_create_account app identity aid uid =
        (permission_denied "Auth not configured (dev mode)", []) ∧
      admin_list_accounts app identity =
        (permission_denied "Auth not configured (dev mode)", []) ∧
      admin_delete_account app identity aid =
        (permission_denied "Auth not configured (dev mode)", []) ∧
      admin_set_role app identity aid uid role =
        (permission_denied "Auth not configured (dev mode)", [])) ∧
    (((get_request_context identity).role = Role.ROOT ∨
        ((get_request_context identity).role = Role.ADMIN ∧
          (get_request_context identity).user.account = aid)) →
      admin_register_user app identity aid uid role =
        (permission_denied "Auth not configured (dev mode)", []) ∧
      admin_list_users app identity aid =
        (permission_denied "Auth not configured (dev mode)", []) ∧
      admin_remove_user app identity aid uid =
        (permission_denied "Auth not configured (dev mode)", [])) := by
  constructor
  · intro hroot
    have hg : _require_root (get_request_context identity) = none := by
      simp [_require_root, hroot]
    refine ⟨?_, ?_, ?_, ?_⟩ <;>
      simp [admin_create_account, admin_list_accounts, admin_delete_account,
        admin_set_role, hg, happ]
  · intro hauth
    have hg : _require_admin_or_root (get_request_context identity) aid = none := by
      rcases hauth with h | h
      · simp [_require_admin_or_root, h]
      · have hne : ¬ (get_request_context identity).role = Role.ROOT := by
          simp [h.1]
        simp [_require_admin_or_root, hne, h.1, h.2]
    refine ⟨?_, ?_, ?_⟩ <;>
      simp [admin_register_user, admin_list_users, admin_remove_user, hg, happ]

theorem devMode_denial_spec_witness :
    (get_request_context none).role = Role.ROOT ∧
    admin_create_account { service := sampleService, api_key_manager := none }
        none "acme" "alice" =
      (permission_denied "Auth not configured (dev mode)", []) ∧
    admin_register_user { service := sampleService, api_key_manager := none }
        none "acme" "bob" "user" =
      (permission_denied "Auth not configured (dev mode)", []) :=
  ⟨rfl,
   ((devMode_denial_spec
      { service := sampleService, api_key_manager := none }
      none "acme" "alice" "user" rfl).1 rfl).1,
   ((devMode_denial_spec
      { service := sampleService, api_key_manager := none }
      none "acme" "bob" "user" rfl).2 (Or.inl rfl)).1⟩

/-- C7: the AppContext built by the lifespan hook has a key manager
present exactly when the configured root_api_key is truthy (set and
non-empty), and carries the given service handle unchanged; being a
pure construction whose fields the source never reassigns, the
biconditional holds for the whole process lifetime. -/
theorem appContext_keyManager_iff (config : MCPServerConfig)
    (service : OpenVikingService) (mk : String → String → APIKeyManager) :
    ((app_lifespan_context config service mk).api_key_manager ≠ none ↔
      rootKeyConfigured config = true) ∧
    (app_lifespan_context config service mk).service = service := by
  obtain ⟨h, p, rk, co⟩ := config
  cases rk with
  | none => simp [app_lifespan_context, rootKeyConfigured]
  | some k =>
    by_cases hk : k = "" <;>
      simp [app_lifespan_context, rootKeyConfigured, hk]

theorem appContext_keyManager_iff_witness :
    (app_lifespan_context
        { host := "0.0.0.0", port := 2033, root_api_key := some "root-key",
          cors_origins := ["*"] } sampleService
        (fun _ _ => sampleManager)).api_key_manager ≠ none ∧
    (app_lifespan_context
        { host := "0.0.0.0", port := 2033, root_api_key := none,
          cors_origins := ["*"] } sampleService
        (fun _ _ => sampleManager)).api_key_manager = none :=
  ⟨(appContext_keyManager_iff
      { host := "0.0.0.0", port := 2033, root_api_key := some "root-key",
        cors_origins := ["*"] } sampleService
      (fun _ _ => sampleManager)).1.mpr (by decide),
   by
    have h := (appContext_keyManager_iff
      { host := "0.0.0.0", port := 2033, root_api_key := none,
        cors_origins := ["*"] } sampleService
      (fun _ _ => sampleManager)).1
    by_contra hne
    exact absurd (h.mp hne) (by decide)⟩

/-- C8: the merged configuration takes host, root_api_key and
cors_origins from the mcp_server section, falling back to the server
section and then to "0.0.0.0" / null / ["*"], while port comes from
mcp_server alone with default 2033 — never from server.port (the merge
result is independent of the entire server section as far as port is
concerned) — and an absent config file yields all defaults. -/
theorem config_merge_spec (doc : ConfDoc) :
    ((from_ov_conf (some doc)).host =
      ((doc.mcp_server.getD emptySection).host.getD
        ((doc.server.getD emptySection).host.getD "0.0.0.0"))) ∧
    ((from_ov_conf (some doc)).root_api_key =
      (match (doc.mcp_server.getD emptySection).root_api_key with
       | some v => some v
       | none => (doc.server.getD emptySection).root_api_key)) ∧
    ((from_ov_conf (some doc)).cors_origins =
      ((doc.mcp_server.getD emptySection).cors_origins.getD
        ((doc.server.getD emptySection).cors_origins.getD ["*"]))) ∧
    ((from_ov_conf (some doc)).port =
      ((doc.mcp_server.getD emptySection).port.getD 2033)) ∧
    (∀ other : Option ConfSection,
      (from_ov_conf (some { server := other, mcp_server := doc.mcp_server })).port =
        (from_ov_conf (some doc)).port) ∧
    from_ov_conf none =
      { host := "0.0.0.0", port := 2033, root_api_key := none,
        cors_origins := ["*"] } :=
  ⟨rfl, rfl, rfl, rfl, fun _ => rfl, rfl⟩

/-- C10: in every admin tool the role gate runs before the key-manager
presence check: a caller who fails the gate receives the role denial —
with an empty external-call trace — for every AppContext, in particular
when the key manager is absent, so the dev-mode denial can only ever
reach a caller who passed the gate. -/
theorem roleGate_before_keyManager_spec (app : AppContext)
    (identity : Option ResolvedIdentity) (aid uid role : String) :
    (¬ (get_request_context identity).role = Role.ROOT →
      admin_create_account app identity aid uid =
        (permission_denied "ROOT role required", []) ∧
      admin_list_accounts app identity =
        (permission_denied "ROOT role required", []) ∧
      admin_delete_account app identity aid =
        (permission_denied "ROOT role required", []) ∧
      admin_set_role app identity aid uid role =
        (permission_denied "ROOT role required", [])) ∧
    (¬ ((get_request_context identity).role = Role.ROOT ∨
        ((get_request_context identity).role = Role.ADMIN ∧
          (get_request_context identity).user.account = aid)) →
      admin_register_user app identity aid uid role =
        (permission_denied "ROOT or account ADMIN role required", []) ∧
      admin_list_users app identity aid =
        (permission_denied "ROOT or account ADMIN role required", []) ∧
      admin_remove_user app identity aid uid =
        (permission_denied "ROOT or account ADMIN role required", [])) := by
  constructor
  · intro hroot
    have hg : _require_root (get_request_context identity) =
        some (permission_denied "ROOT role required") := by
      simp [_require_root, hroot]
    refine ⟨?_, ?_, ?_, ?_⟩ <;>
      simp [admin_create_account, admin_list_accounts, admin_delete_account,
        admin_set_role, hg]
  · intro hauth
    have h1 : ¬ (get_request_context identity).role = Role.ROOT :=
      fun h => hauth (Or.inl h)
    have h2 : ¬ ((get_request_context identity).role = Role.ADMIN ∧
        (get_request_context identity).user.account = aid) :=
      fun h => hauth (Or.inr h)
    have hg : _require_admin_or_root (get_request_context identity) aid =
        some (permission_denied "ROOT or account ADMIN role required") := by
      simp [_require_admin_or_root, h1, h2]
    refine ⟨?_, ?_, ?_⟩ <;>
      simp [admin_register_user, admin_list_users, admin_remove_user, hg]

theorem roleGate_before_keyManager_spec_witness :
    admin_create_account { service := sampleService, api_key_manager := none }
        (some { account_id := some "acme", user_id := some "u",
                agent_id := some "a", role := Role.USER }) "acme" "alice" =
      (permission_denied "ROOT role required", []) ∧
    admin_register_user { service := sampleService, api_key_manager := none }
        (some { account_id := some "other", user_id := some "u",
                agent_id := some "a", role := Role.ADMIN }) "acme" "bob" "user" =
      (permission_denied "ROOT or account ADMIN role required", []) :=
  ⟨((roleGate_before_keyManager_spec
      { service := sampleService, api_key_manager := none }
      (some { account_id := some "acme", user_id := some "u",
              agent_id := some "a", role := Role.USER })
      "acme" "alice" "user").1 (by decide)).1,
   ((roleGate_before_keyManager_spec
      { service := sampleService, api_key_manager := none }
      (some { account_id := some "other", user_id := some "u",
              agent_id := some "a", role := Role.ADMIN })
      "acme" "bob" "user").2 (by decide)).1⟩

end OpenViking
